import Mathlib

/-!
Verification development for the CSV redaction engine in
`src/utils/clean-data/sanitize.py` (class `RedactionPatterns`,
class `RedactionEngine`).

Cells are modelled as `List Char` (the engine first coerces every cell
to a string with `astype(str)`, so all cells are text).  Every compiled
regular expression of `RedactionPatterns` is translated into an explicit
character-level matcher with Python `re` semantics (leftmost match,
greedy/lazy quantifiers with backtracking, lookarounds evaluated over the
original text).  `re.sub` is modelled by a leftmost scan that, after a
match, resumes immediately after the matched span of the original text.
Python's `\w`, `\d`, `\s` are modelled over ASCII, which covers all data
considered here.
-/

abbrev Cell := List Char

def strC (s : String) : Cell := s.data

/-! ### Character classes -/

def isDigitC (c : Char) : Bool := c.isDigit

def isAlphaC (c : Char) : Bool := c.isAlpha

def isAlnumC (c : Char) : Bool := c.isAlphanum

/-- Python regex word character (`\w`, ASCII fragment). -/
def isWordC (c : Char) : Bool := c.isAlphanum || c = '_'

def isHexC (c : Char) : Bool :=
  c.isDigit || ('a' ≤ c && c ≤ 'f') || ('A' ≤ c && c ≤ 'F')

/-- The class `[A-F0-9]` used by the ipv6 pattern (upper-case only). -/
def isUpperHexC (c : Char) : Bool := c.isDigit || ('A' ≤ c && c ≤ 'F')

/-- Python regex whitespace (`\s`). -/
def isSpaceC (c : Char) : Bool :=
  c = ' ' || c = '\t' || c = '\n' || c = '\r' || c = '\x0b' || c = '\x0c'

/-- The class `[a-zA-Z0-9.-]` of the fqdn pattern. -/
def hostC (c : Char) : Bool := isAlnumC c || c = '.' || c = '-'

/-- The class `[A-Za-z0-9._%+-]` of the email local part. -/
def localC (c : Char) : Bool :=
  isAlnumC c || c = '.' || c = '_' || c = '%' || c = '+' || c = '-'

/-- The class `[A-Z|a-z]` of the email pattern tail (note the literal `|`). -/
def tldC (c : Char) : Bool := isAlphaC c || c = '|'

def isQuoteC (c : Char) : Bool := c = '"' || c = '\''

/-! ### Generic helpers -/

def optWordC : Option Char → Bool
  | none => false
  | some c => isWordC c

/-- Python `\b` between a left and a right character (`none` = text edge). -/
def wordBoundary (l r : Option Char) : Bool := optWordC l != optWordC r

/-- Length of the maximal prefix run satisfying `p`. -/
def runLen (p : Char → Bool) : List Char → Nat
  | [] => 0
  | c :: cs => if p c then runLen p cs + 1 else 0

/-- Does the text start with the given literal pattern (case-sensitive)? -/
def startsWithL : List Char → List Char → Bool
  | [], _ => true
  | _ :: _, [] => false
  | p :: ps, c :: cs => (p = c) && startsWithL ps cs

/-- Case-insensitive variant (used for `(?i)` patterns). -/
def startsWithCI : List Char → List Char → Bool
  | [], _ => true
  | _ :: _, [] => false
  | p :: ps, c :: cs => (p.toLower = c.toLower) && startsWithCI ps cs

/-- Does `needle` occur as a contiguous substring of the text? -/
def containsSub (needle : Cell) : List Char → Bool
  | [] => startsWithL needle []
  | c :: cs => startsWithL needle (c :: cs) || containsSub needle cs

def toLowerL (cs : List Char) : List Char := cs.map Char.toLower

/-- Case-insensitive substring test (pandas `str.contains(..., case=False)`
    with a literal pattern). -/
def containsCI (text pat : Cell) : Bool :=
  containsSub (toLowerL pat) (toLowerL text)

def firstSome {α β : Type} : List α → (α → Option β) → Option β
  | [], _ => none
  | a :: rest, f =>
    match f a with
    | some b => some b
    | none => firstSome rest f

/-- `n, n-1, ..., 0`: candidate lengths of a greedy quantifier in
    backtracking order. -/
def downFrom : Nat → List Nat
  | 0 => [0]
  | n + 1 => (n + 1) :: downFrom n

/-- Try candidate consumption lengths in order; continue with `k` on the rest. -/
def tryLens (cands : List Nat) (cs : List Char) (k : List Char → Option Nat) :
    Option Nat :=
  firstSome cands (fun n => (k (cs.drop n)).map (fun m => n + m))

/-- Candidates of an optional single-character item (greedy: present first). -/
def optCand (b : Bool) : List Nat := if b then [1, 0] else [0]

/-- Consume exactly `n` digits, then continue. -/
def exactDigits (n : Nat) (cs : List Char) (k : List Char → Option Nat) :
    Option Nat :=
  if (cs.take n).length = n && (cs.take n).all isDigitC then
    (k (cs.drop n)).map (fun m => n + m)
  else none

/-! ### The replace-all driver

A matcher receives the character immediately before the current position of
the original text (for lookbehind and `\b`) and the remaining suffix, and
returns the number of consumed characters together with the replacement
text.  `subst` mirrors `pattern.sub(repl, text)`. -/

abbrev Matcher := Option Char → List Char → Option (Nat × List Char)

def substFuel (m : Matcher) : Nat → Option Char → List Char → List Char
  | 0, _, s => s
  | _ + 1, _, [] => []
  | fuel + 1, prev, c :: cs =>
    match m prev (c :: cs) with
    | some (n + 1, rep) =>
        rep ++ substFuel m fuel (((c :: cs).take (n + 1)).getLast?)
          ((c :: cs).drop (n + 1))
    | _ => c :: substFuel m fuel (some c) cs

def subst (m : Matcher) (s : List Char) : List Char :=
  substFuel m s.length none s

/-! ### Redaction tokens (section 6 vocabulary) -/

def tokIPv4 : Cell := strC ("[REDACTED: IPv4]")
def tokIPv6 : Cell := strC ("[REDACTED: IPv6]")
def tokEMAIL : Cell := strC ("[REDACTED: EMAIL]")
def tokMAC : Cell := strC ("[REDACTED: MAC]")
def tokUUID : Cell := strC ("[REDACTED: UUID]")
def tokCONTAINER : Cell := strC ("[REDACTED: CONTAINER_ID]")
def tokAWSKEY : Cell := strC ("[REDACTED: AWS_KEY]")
def tokGOOGLE : Cell := strC ("[REDACTED: GOOGLE_KEY]")
def tokSTRIPE : Cell := strC ("[REDACTED: STRIPE_KEY]")
def tokAPIKEY : Cell := strC ("[REDACTED: API_KEY_ASSIGNMENT]")
def tokNRENV : Cell := strC ("[REDACTED: NR_ENV_VAR]")
def tokPLOC : Cell := strC ("[REDACTED: PRIVATE_LOCATION_KEY]")
def tokARN : Cell := strC ("[REDACTED: AWS_ARN]")
def tokAZURE : Cell := strC ("[REDACTED: AZURE_ID]")
def tokGCP : Cell := strC ("[REDACTED: GCP_ID]")
def tokPHONE : Cell := strC ("[REDACTED: PHONE]")
def tokSSN : Cell := strC ("[REDACTED: SSN]")
def tokNAME : Cell := strC ("[REDACTED: NAME]")
def tokCC : Cell := strC ("[REDACTED: CREDIT_CARD]")
def tokFQDN : Cell := strC ("[REDACTED: FQDN]")
def tokCOMP : Cell := strC ("[REDACTED: PRODUCT/COMPETITOR]")

/-! ### `RedactionPatterns.ipv4`
`(?<!\d)(?:(?:25[0-5]|2[0-4][0-9]|[01]?[0-9][0-9]?)\.){3}(?:25[0-5]|2[0-4][0-9]|[01]?[0-9][0-9]?)(?!\d)` -/

/-- Candidate lengths of one octet alternation, in backtracking order. -/
def octetCands (cs : List Char) : List Nat :=
  let a1 :=
    match cs with
    | '2' :: '5' :: x :: _ => if '0' ≤ x && x ≤ '5' then [3] else []
    | _ => []
  let a2 :=
    match cs with
    | '2' :: y :: z :: _ =>
        if ('0' ≤ y && y ≤ '4') && isDigitC z then [3] else []
    | _ => []
  let a3 :=
    match cs with
    | [] => []
    | c0 :: rest =>
      if c0 = '0' || c0 = '1' then
        (match rest with
         | [] => [1]
         | c1 :: r2 =>
           (if isDigitC c1 then
              (match r2 with
               | c2 :: _ => if isDigitC c2 then [3] else []
               | [] => []) ++ [2]
            else []) ++
           (if isDigitC c1 then [2, 1] else [1]))
      else if isDigitC c0 then
        (match rest with
         | c1 :: _ => if isDigitC c1 then [2, 1] else [1]
         | [] => [1])
      else []
  a1 ++ a2 ++ a3

/-- Final octet followed by `(?!\d)`. -/
def ip4last (cs : List Char) : Option Nat :=
  firstSome (octetCands cs) (fun n =>
    match (cs.drop n).head? with
    | some c => if isDigitC c then none else some n
    | none => some n)

/-- One octet followed by a literal dot, then continue. -/
def ip4dot (cs : List Char) (k : List Char → Option Nat) : Option Nat :=
  firstSome (octetCands cs) (fun n =>
    match cs.drop n with
    | '.' :: rest => (k rest).map (fun m => n + 1 + m)
    | _ => none)

def ipv4From (cs : List Char) : Option Nat :=
  ip4dot cs (fun r1 => ip4dot r1 (fun r2 => ip4dot r2 ip4last))

def ipv4M : Matcher := fun prev s =>
  let okPrev :=
    match prev with
    | some c => !isDigitC c
    | none => true
  if okPrev then (ipv4From s).map (fun n => (n, tokIPv4)) else none

/-! ### `RedactionPatterns.ipv6`
`(?<![0-9a-fA-F:])(?:[A-F0-9]{1,4}:){7}[A-F0-9]{1,4}(?![0-9a-fA-F:])` -/

def ipv6Groups : Nat → List Char → Option Nat
  | 0, cs =>
    let r := runLen isUpperHexC cs
    if 1 ≤ r && r ≤ 4 then
      match (cs.drop r).head? with
      | some c => if isHexC c || c = ':' then none else some r
      | none => some r
    else none
  | n + 1, cs =>
    let r := runLen isUpperHexC cs
    if 1 ≤ r && r ≤ 4 then
      match cs.drop r with
      | ':' :: rest => (ipv6Groups n rest).map (fun m => r + 1 + m)
      | _ => none
    else none

def ipv6M : Matcher := fun prev s =>
  let okPrev :=
    match prev with
    | some c => !(isHexC c || c = ':')
    | none => true
  if okPrev then (ipv6Groups 7 s).map (fun n => (n, tokIPv6)) else none

/-! ### `RedactionPatterns.email`
`\b[A-Za-z0-9._%+-]+@[A-Za-z0-9.-]+\.[A-Z|a-z]{2,}\b` -/

def emailM : Matcher := fun prev s =>
  if wordBoundary prev s.head? then
    let l := runLen localC s
    if 1 ≤ l then
      match s.drop l with
      | '@' :: ds =>
        let rmax := runLen hostC ds
        let res := firstSome ((downFrom rmax).filter (fun k => 1 ≤ k)) (fun k =>
          match ds.drop k with
          | '.' :: ts =>
            let t0 := runLen tldC ts
            (firstSome ((downFrom t0).filter (fun t => 2 ≤ t)) (fun t =>
              match (ts.take t).getLast? with
              | some lc =>
                  if wordBoundary (some lc) ((ts.drop t).head?) then some t
                  else none
              | none => none)).map (fun t => k + 1 + t)
          | _ => none)
        res.map (fun dk => (l + 1 + dk, tokEMAIL))
      | _ => none
    else none
  else none

/-! ### `RedactionPatterns.mac_address`
`([0-9A-Fa-f]{2}[:-]){5}([0-9A-Fa-f]{2})` -/

def macPair : List Char → Option (List Char)
  | a :: b :: rest => if isHexC a && isHexC b then some rest else none
  | _ => none

def macSep : List Char → Option (List Char)
  | c :: rest => if c = ':' || c = '-' then some rest else none
  | _ => none

def macFrom (cs : List Char) : Option Nat := do
  let r ← macPair cs
  let r ← macSep r
  let r ← macPair r
  let r ← macSep r
  let r ← macPair r
  let r ← macSep r
  let r ← macPair r
  let r ← macSep r
  let r ← macPair r
  let r ← macSep r
  let _ ← macPair r
  pure 17

def macM : Matcher := fun _ s => (macFrom s).map (fun n => (n, tokMAC))

/-! ### `RedactionPatterns.uuid`
`\b[0-9a-fA-F]{8}-[0-9a-fA-F]{4}-[0-9a-fA-F]{4}-[0-9a-fA-F]{4}-[0-9a-fA-F]{12}\b` -/

def hexSeg (n : Nat) (cs : List Char) : Option (List Char) :=
  if (cs.take n).length = n && (cs.take n).all isHexC then some (cs.drop n)
  else none

def dashSeg : List Char → Option (List Char)
  | '-' :: rest => some rest
  | _ => none

def uuidFrom (cs : List Char) : Option Nat := do
  let r ← hexSeg 8 cs
  let r ← dashSeg r
  let r ← hexSeg 4 r
  let r ← dashSeg r
  let r ← hexSeg 4 r
  let r ← dashSeg r
  let r ← hexSeg 4 r
  let r ← dashSeg r
  let r ← hexSeg 12 r
  if optWordC r.head? then none else pure 36

def uuidM : Matcher := fun prev s =>
  if wordBoundary prev s.head? then (uuidFrom s).map (fun n => (n, tokUUID))
  else none

/-! ### `RedactionPatterns.container_id`
`\b[a-fA-F0-9]{64}\b` -/

def containerM : Matcher := fun prev s =>
  if wordBoundary prev s.head? then
    if (s.take 64).length = 64 && (s.take 64).all isHexC &&
        !optWordC ((s.drop 64).head?) then
      some (64, tokCONTAINER)
    else none
  else none

/-! ### `RedactionPatterns.aws_key_id`
`\b(AKIA|ASIA)[0-9A-Z]{16}\b` -/

def awsTailC (c : Char) : Bool := isDigitC c || ('A' ≤ c && c ≤ 'Z')

def awsKeyM : Matcher := fun prev s =>
  if wordBoundary prev s.head? then
    if (startsWithL (strC ("AKIA")) s || startsWithL (strC ("ASIA")) s) &&
        ((s.drop 4).take 16).length = 16 &&
        ((s.drop 4).take 16).all awsTailC &&
        !optWordC ((s.drop 20).head?) then
      some (20, tokAWSKEY)
    else none
  else none

/-! ### `RedactionPatterns.google_api_key`
`\bAIza[0-9A-Za-z\-_]{35}\b` -/

def gTailC (c : Char) : Bool := isAlnumC c || c = '-' || c = '_'

def googleM : Matcher := fun prev s =>
  if wordBoundary prev s.head? then
    if startsWithL (strC ("AIza")) s && ((s.drop 4).take 35).length = 35 &&
        ((s.drop 4).take 35).all gTailC then
      match ((s.drop 4).take 35).getLast? with
      | some lc =>
          if wordBoundary (some lc) ((s.drop 39).head?) then
            some (39, tokGOOGLE)
          else none
      | none => none
    else none
  else none

/-! ### `RedactionPatterns.stripe_key`
`\b(sk|pk)_(test|live)_[0-9a-zA-Z]{24,}\b` -/

def stripeM : Matcher := fun prev s =>
  if wordBoundary prev s.head? then
    if startsWithL (strC ("sk_")) s || startsWithL (strC ("pk_")) s then
      let r := s.drop 3
      if startsWithL (strC ("test_")) r || startsWithL (strC ("live_")) r then
        let v := r.drop 5
        let n := runLen isAlnumC v
        if 24 ≤ n && !optWordC ((v.drop n).head?) then some (8 + n, tokSTRIPE)
        else none
      else none
    else none
  else none

/-! ### `RedactionPatterns.api_keys_assignment`
`(?i)(["\']?)\b(api_key|access_token|secret|private_key|key|token|license[-_]?key)\b\1\s*[:=]\s*(["\']?)[A-Za-z0-9_\-]+\3`
replaced by `\1\2\1\3[REDACTED: API_KEY_ASSIGNMENT]\3`. -/

/-- The value class `[A-Za-z0-9_\-]`. -/
def valC (c : Char) : Bool := isAlnumC c || c = '_' || c = '-'

/-- Candidates of an optional opening quote group, greedy order. -/
def quoteCands (cs : List Char) : List (Option Char) :=
  match cs.head? with
  | some c => if isQuoteC c then [some c, none] else [none]
  | none => [none]

/-- Keyword alternation candidates (lengths), in the regex's order;
    `license[-_]?key` expands greedily (separator present first). -/
def apiKeywordCands (cs : List Char) : List Nat :=
  (if startsWithCI (strC ("api_key")) cs then [7] else []) ++
  (if startsWithCI (strC ("access_token")) cs then [12] else []) ++
  (if startsWithCI (strC ("secret")) cs then [6] else []) ++
  (if startsWithCI (strC ("private_key")) cs then [11] else []) ++
  (if startsWithCI (strC ("key")) cs then [3] else []) ++
  (if startsWithCI (strC ("token")) cs then [5] else []) ++
  (if startsWithCI (strC ("license")) cs then
    (match cs.drop 7 with
     | c :: rest =>
       (if (c = '-' || c = '_') && startsWithCI (strC ("key")) rest then [11]
        else []) ++
       (if startsWithCI (strC ("key")) (cs.drop 7) then [10] else [])
     | [] => [])
   else [])

def apiKeyM : Matcher := fun prev s =>
  firstSome (quoteCands s) (fun g1 =>
    let body := match g1 with | some _ => s.drop 1 | none => s
    let pre := match g1 with | some _ => 1 | none => 0
    let leftC := match g1 with | some q => some q | none => prev
    if wordBoundary leftC body.head? then
      firstSome (apiKeywordCands body) (fun kl =>
        let r1 := body.drop kl
        if !optWordC r1.head? then
          let closed : Option (List Char × Nat) :=
            match g1 with
            | some q =>
              (match r1 with
               | c :: r => if c = q then some (r, 1) else none
               | [] => none)
            | none => some (r1, 0)
          match closed with
          | some (r2, cq) =>
            let w1 := runLen isSpaceC r2
            (match (r2.drop w1) with
             | c :: r3 =>
               if c = ':' || c = '=' then
                 let w2 := runLen isSpaceC r3
                 let vs := r3.drop w2
                 firstSome (quoteCands vs) (fun g3 =>
                   let inner := match g3 with | some _ => vs.drop 1 | none => vs
                   let v := runLen valC inner
                   if 1 ≤ v then
                     let g1part : List Char :=
                       match g1 with | some q => [q] | none => []
                     let g3part : List Char :=
                       match g3 with | some q => [q] | none => []
                     let rep :=
                       g1part ++ body.take kl ++ g1part ++ g3part ++
                         tokAPIKEY ++ g3part
                     match g3 with
                     | some q3 =>
                       if (inner.drop v).head? = some q3 then
                         some (pre + kl + cq + w1 + 1 + w2 + 1 + v + 1, rep)
                       else none
                     | none => some (pre + kl + cq + w1 + 1 + w2 + v, rep)
                   else none)
               else none
             | [] => none)
          | none => none
        else none)
    else none)

/-! ### New Relic environment-variable patterns -/

/-- The class `[A-Z0-9_]` under `(?i)`. -/
def nrVarC (c : Char) : Bool := isAlphaC c || isDigitC c || c = '_'

/-- `(?:NEW_RELIC_|NRIA_|NEWRELIC_)[A-Z0-9_]+` under `(?i)`. -/
def nrVarFrom (cs : List Char) : Option Nat :=
  firstSome [strC ("NEW_RELIC_"), strC ("NRIA_"), strC ("NEWRELIC_")] (fun p =>
    if startsWithCI p cs then
      let r := runLen nrVarC (cs.drop p.length)
      if 1 ≤ r then some (p.length + r) else none
    else none)

/-- `(?:synthetics\.)?privateLocationKey|PRIVATE_LOCATION_KEY` under `(?i)`. -/
def plocVarFrom (cs : List Char) : Option Nat :=
  firstSome [strC ("synthetics.privateLocationKey"), strC ("privateLocationKey"),
      strC ("PRIVATE_LOCATION_KEY")]
    (fun p => if startsWithCI p cs then some p.length else none)

/-- End-position candidates of the separator `\s*(?:[:=]|\s+)\s*`, in the
    backtracking order of the regex engine (distinct end positions). -/
def sepCands (cs : List Char) : List Nat :=
  let w := runLen isSpaceC cs
  let base := (downFrom w).filter (fun k => 1 ≤ k)
  match (cs.drop w).head? with
  | some c =>
    if c = ':' || c = '=' then
      ((downFrom (runLen isSpaceC (cs.drop (w + 1)))).map
        (fun j => w + 1 + j)) ++ base
    else base
  | none => base

/-- The negative lookahead `(?!value\s*:)` of
    `nr_env_assignment_unquoted` (true = the lookahead fails). -/
def isValueColon (cs : List Char) : Bool :=
  startsWithCI (strC ("value")) cs &&
    ((cs.drop (5 + runLen isSpaceC (cs.drop 5))).head? = some ':')

/-- Lazy `(.*?)` up to the closing quote `q` (Python `.` excludes newline). -/
def lazyToQuote (q : Char) : List Char → Option Nat
  | [] => none
  | c :: cs =>
    if c = q then some 0
    else if c = '\n' then none
    else (lazyToQuote q cs).map (fun n => n + 1)

/-- Shared shape of `nr_env_assignment_quoted` and
    `private_loc_assignment_quoted`:
`(?i)(["\']?)\b(VAR)\b\1(\s*(?:[:=]|\s+)\s*)(["\'])(.*?)\4` replaced by
`\1\2\1\3\4(token)\4`. -/
def assignQuotedM (varFrom : List Char → Option Nat) (tok : Cell) : Matcher :=
  fun prev s =>
  firstSome (quoteCands s) (fun g1 =>
    let body := match g1 with | some _ => s.drop 1 | none => s
    let pre := match g1 with | some _ => 1 | none => 0
    let leftC := match g1 with | some q => some q | none => prev
    if wordBoundary leftC body.head? then
      match varFrom body with
      | some vl =>
        let r1 := body.drop vl
        if !optWordC r1.head? then
          let closed : Option (List Char × Nat) :=
            match g1 with
            | some q =>
              (match r1 with
               | c :: r => if c = q then some (r, 1) else none
               | [] => none)
            | none => some (r1, 0)
          match closed with
          | some (r2, cq) =>
            firstSome (sepCands r2) (fun sl =>
              match r2.drop sl with
              | q4 :: r4 =>
                if isQuoteC q4 then
                  match lazyToQuote q4 r4 with
                  | some g5 =>
                    let g1part : List Char :=
                      match g1 with | some q => [q] | none => []
                    some (pre + vl + cq + sl + 1 + g5 + 1,
                      g1part ++ body.take vl ++ g1part ++ r2.take sl ++
                        [q4] ++ tok ++ [q4])
                  | none => none
                else none
              | [] => none)
          | none => none
        else none
      | none => none
    else none)

/-- Shared shape of `nr_env_assignment_unquoted` (with the
    `(?!value\s*:)` lookahead) and `private_loc_assignment_unquoted`
    (without it):
`(?i)(["\']?)\b(VAR)\b\1(\s*(?:[:=]|\s+)\s*)LOOKAHEAD([^\s"\']+)` replaced
by `\1\2\1\3(token)`. -/
def assignUnquotedM (varFrom : List Char → Option Nat) (tok : Cell)
    (checkValueLabel : Bool) : Matcher := fun prev s =>
  firstSome (quoteCands s) (fun g1 =>
    let body := match g1 with | some _ => s.drop 1 | none => s
    let pre := match g1 with | some _ => 1 | none => 0
    let leftC := match g1 with | some q => some q | none => prev
    if wordBoundary leftC body.head? then
      match varFrom body with
      | some vl =>
        let r1 := body.drop vl
        if !optWordC r1.head? then
          let closed : Option (List Char × Nat) :=
            match g1 with
            | some q =>
              (match r1 with
               | c :: r => if c = q then some (r, 1) else none
               | [] => none)
            | none => some (r1, 0)
          match closed with
          | some (r2, cq) =>
            firstSome (sepCands r2) (fun sl =>
              let r3 := r2.drop sl
              if checkValueLabel && isValueColon r3 then none
              else
                let v := runLen (fun c => !(isSpaceC c || isQuoteC c)) r3
                if 1 ≤ v then
                  let g1part : List Char :=
                    match g1 with | some q => [q] | none => []
                  some (pre + vl + cq + sl + v,
                    g1part ++ body.take vl ++ g1part ++ r2.take sl ++ tok)
                else none)
          | none => none
        else none
      | none => none
    else none)

def nrAssignQM : Matcher := assignQuotedM nrVarFrom tokNRENV

def nrAssignUM : Matcher := assignUnquotedM nrVarFrom tokNRENV true

def plocQM : Matcher := assignQuotedM plocVarFrom tokPLOC

def plocUM : Matcher := assignUnquotedM plocVarFrom tokPLOC false

/-! ### `RedactionPatterns.nr_env_structured_quoted`
`(?i)(name\s*:\s*(["\']?)\b(?:NEW_RELIC_|NRIA_|NEWRELIC_)[A-Z0-9_]+\b\2\s+value\s*:\s*)(["\'])(.*?)\3`
replaced by `\1\3[REDACTED: NR_ENV_VAR]\3`. -/

def nrStructQM : Matcher := fun _ s =>
  if startsWithCI (strC ("name")) s then
    let w1 := runLen isSpaceC (s.drop 4)
    match s.drop (4 + w1) with
    | ':' :: r1 =>
      let w2 := runLen isSpaceC r1
      let r2 := r1.drop w2
      firstSome (quoteCands r2) (fun g2 =>
        let body := match g2 with | some _ => r2.drop 1 | none => r2
        let qn := match g2 with | some _ => 1 | none => 0
        let leftC : Option Char :=
          match g2 with
          | some q => some q
          | none => if w2 = 0 then some ':' else (r1.take w2).getLast?
        if wordBoundary leftC body.head? then
          match nrVarFrom body with
          | some vl =>
            let r3 := body.drop vl
            if !optWordC r3.head? then
              let closed : Option (List Char × Nat) :=
                match g2 with
                | some q =>
                  (match r3 with
                   | c :: r => if c = q then some (r, 1) else none
                   | [] => none)
                | none => some (r3, 0)
              match closed with
              | some (r4, cq) =>
                let w3 := runLen isSpaceC r4
                if 1 ≤ w3 && startsWithCI (strC ("value")) (r4.drop w3) then
                  let r5 := r4.drop (w3 + 5)
                  let w4 := runLen isSpaceC r5
                  match r5.drop w4 with
                  | ':' :: r6 =>
                    let w5 := runLen isSpaceC r6
                    let g1len :=
                      4 + w1 + 1 + w2 + qn + vl + cq + w3 + 5 + w4 + 1 + w5
                    match r6.drop w5 with
                    | q3 :: r8 =>
                      if isQuoteC q3 then
                        match lazyToQuote q3 r8 with
                        | some g4 =>
                          some (g1len + 1 + g4 + 1,
                            s.take g1len ++ [q3] ++ tokNRENV ++ [q3])
                        | none => none
                      else none
                    | [] => none
                  | _ => none
                else none
              | none => none
            else none
          | none => none
        else none)
    | _ => none
  else none

/-! ### `RedactionPatterns.nr_env_structured_unquoted`
`(?i)(name\s*:\s*(["\']?)\b(?:NEW_RELIC_|NRIA_|NEWRELIC_)[A-Z0-9_]+\b\2\s+value\s*:\s*)([^\s"\']+)`
replaced by `\1[REDACTED: NR_ENV_VAR]`. -/

def nrStructUM : Matcher := fun _ s =>
  if startsWithCI (strC ("name")) s then
    let w1 := runLen isSpaceC (s.drop 4)
    match s.drop (4 + w1) with
    | ':' :: r1 =>
      let w2 := runLen isSpaceC r1
      let r2 := r1.drop w2
      firstSome (quoteCands r2) (fun g2 =>
        let body := match g2 with | some _ => r2.drop 1 | none => r2
        let qn := match g2 with | some _ => 1 | none => 0
        let leftC : Option Char :=
          match g2 with
          | some q => some q
          | none => if w2 = 0 then some ':' else (r1.take w2).getLast?
        if wordBoundary leftC body.head? then
          match nrVarFrom body with
          | some vl =>
            let r3 := body.drop vl
            if !optWordC r3.head? then
              let closed : Option (List Char × Nat) :=
                match g2 with
                | some q =>
                  (match r3 with
                   | c :: r => if c = q then some (r, 1) else none
                   | [] => none)
                | none => some (r3, 0)
              match closed with
              | some (r4, cq) =>
                let w3 := runLen isSpaceC r4
                if 1 ≤ w3 && startsWithCI (strC ("value")) (r4.drop w3) then
                  let r5 := r4.drop (w3 + 5)
                  let w4 := runLen isSpaceC r5
                  match r5.drop w4 with
                  | ':' :: r6 =>
                    let w5 := runLen isSpaceC r6
                    let g1len :=
                      4 + w1 + 1 + w2 + qn + vl + cq + w3 + 5 + w4 + 1 + w5
                    let r7 := r6.drop w5
                    let v := runLen (fun c => !(isSpaceC c || isQuoteC c)) r7
                    if 1 ≤ v then some (g1len + v, s.take g1len ++ tokNRENV)
                    else none
                  | _ => none
                else none
              | none => none
            else none
          | none => none
        else none)
    | _ => none
  else none

/-! ### `RedactionPatterns.aws_arn`
`arn:aws:[a-z0-9-]+:[a-z0-9-]*:[0-9]*:[a-zA-Z0-9-_/]+` -/

def arnSegC (c : Char) : Bool := ('a' ≤ c && c ≤ 'z') || isDigitC c || c = '-'

def arnResC (c : Char) : Bool := isAlnumC c || c = '-' || c = '_' || c = '/'

def arnM : Matcher := fun _ s =>
  if startsWithL (strC ("arn:aws:")) s then
    let t1 := s.drop 8
    let r1 := runLen arnSegC t1
    if 1 ≤ r1 then
      match t1.drop r1 with
      | ':' :: t2 =>
        let r2 := runLen arnSegC t2
        (match t2.drop r2 with
         | ':' :: t3 =>
           let r3 := runLen isDigitC t3
           (match t3.drop r3 with
            | ':' :: t4 =>
              let r4 := runLen arnResC t4
              if 1 ≤ r4 then
                some (8 + r1 + 1 + r2 + 1 + r3 + 1 + r4, tokARN)
              else none
            | _ => none)
         | _ => none)
      | _ => none
    else none
  else none

/-! ### `RedactionPatterns.azure_id`
`(?i)/subscriptions/[a-f0-9-]+/resourceGroups/[a-zA-Z0-9-_]+/providers/[a-zA-Z0-9-_/.]+` -/

def azSubC (c : Char) : Bool :=
  ('a' ≤ c.toLower && c.toLower ≤ 'f') || isDigitC c || c = '-'

def azGrpC (c : Char) : Bool := isAlnumC c || c = '-' || c = '_'

def azResC (c : Char) : Bool :=
  isAlnumC c || c = '-' || c = '_' || c = '/' || c = '.'

def azureM : Matcher := fun _ s =>
  if startsWithCI (strC ("/subscriptions/")) s then
    let t1 := s.drop 15
    let r1 := runLen azSubC t1
    if 1 ≤ r1 && startsWithCI (strC ("/resourceGroups/")) (t1.drop r1) then
      let t2 := t1.drop (r1 + 16)
      let r2 := runLen azGrpC t2
      if 1 ≤ r2 && startsWithCI (strC ("/providers/")) (t2.drop r2) then
        let t3 := t2.drop (r2 + 11)
        let r3 := runLen azResC t3
        if 1 ≤ r3 then some (15 + r1 + 16 + r2 + 11 + r3, tokAZURE) else none
      else none
    else none
  else none

/-! ### `RedactionPatterns.gcp_id`
`projects/[a-z0-9-]+/(zones|regions)/[a-z0-9-]+/` followed by one or more
characters from the class {a-z, 0-9, hyphen, slash}. -/

def gcpSegC (c : Char) : Bool := ('a' ≤ c && c ≤ 'z') || isDigitC c || c = '-'

def gcpResC (c : Char) : Bool := gcpSegC c || c = '/'

def gcpM : Matcher := fun _ s =>
  if startsWithL (strC ("projects/")) s then
    let t1 := s.drop 9
    let r1 := runLen gcpSegC t1
    if 1 ≤ r1 then
      match t1.drop r1 with
      | '/' :: t2 =>
        let zl : Option Nat :=
          if startsWithL (strC ("zones/")) t2 then some 6
          else if startsWithL (strC ("regions/")) t2 then some 8
          else none
        (match zl with
         | some z =>
           let t3 := t2.drop z
           let r2 := runLen gcpSegC t3
           if 1 ≤ r2 then
             (match t3.drop r2 with
              | '/' :: t4 =>
                let r3 := runLen gcpResC t4
                if 1 ≤ r3 then
                  some (9 + r1 + 1 + z + r2 + 1 + r3, tokGCP)
                else none
              | _ => none)
           else none
         | none => none)
      | _ => none
    else none
  else none

/-! ### `RedactionPatterns.phone`
`(?<!\d)\+?1?[\s.-]?\(?\d{3}\)?[\s.-]?\d{3}[\s.-]?\d{4}(?!\d)` -/

def phoneSepC (c : Char) : Bool := isSpaceC c || c = '.' || c = '-'

def headIs (cs : List Char) (c : Char) : Bool := cs.head? = some c

def headSep (cs : List Char) : Bool :=
  match cs.head? with
  | some c => phoneSepC c
  | none => false

def phoneFrom (cs : List Char) : Option Nat :=
  tryLens (optCand (headIs cs '+')) cs (fun a =>
  tryLens (optCand (headIs a '1')) a (fun b =>
  tryLens (optCand (headSep b)) b (fun c =>
  tryLens (optCand (headIs c '(')) c (fun d =>
  exactDigits 3 d (fun e =>
  tryLens (optCand (headIs e ')')) e (fun f =>
  tryLens (optCand (headSep f)) f (fun g =>
  exactDigits 3 g (fun h =>
  tryLens (optCand (headSep h)) h (fun i =>
  exactDigits 4 i (fun j =>
  match j.head? with
  | some c0 => if isDigitC c0 then none else some 0
  | none => some 0))))))))))

def phoneM : Matcher := fun prev s =>
  let okPrev :=
    match prev with
    | some c => !isDigitC c
    | none => true
  if okPrev then (phoneFrom s).map (fun n => (n, tokPHONE)) else none

/-! ### `RedactionPatterns.ssn`
`\b\d{3}-\d{2}-\d{4}\b` -/

def ssnM : Matcher := fun prev s =>
  if wordBoundary prev s.head? then
    (exactDigits 3 s (fun a =>
      match a with
      | '-' :: b =>
        (exactDigits 2 b (fun c =>
          match c with
          | '-' :: d =>
            (exactDigits 4 d (fun e =>
              if optWordC e.head? then none else some 0)).map (fun m => m + 1)
          | _ => none)).map (fun m => m + 1)
      | _ => none)).map (fun n => (n, tokSSN))
  else none

/-! ### `RedactionPatterns.greeting_name`
`(?i)\b(Hi|Hello|Hey)(\s+)([^\s,<>]+)\s*(?=,)` replaced by
`\1\2[REDACTED: NAME]`. -/

def greetNameC (c : Char) : Bool :=
  !(isSpaceC c || c = ',' || c = '<' || c = '>')

def greetM : Matcher := fun prev s =>
  if wordBoundary prev s.head? then
    firstSome
      ((if startsWithCI (strC ("Hi")) s then [2] else []) ++
       (if startsWithCI (strC ("Hello")) s then [5] else []) ++
       (if startsWithCI (strC ("Hey")) s then [3] else []))
      (fun gl =>
        let w := runLen isSpaceC (s.drop gl)
        if 1 ≤ w then
          let g3cs := s.drop (gl + w)
          let g3 := runLen greetNameC g3cs
          if 1 ≤ g3 then
            let w2 := runLen isSpaceC (g3cs.drop g3)
            if (g3cs.drop (g3 + w2)).head? = some ',' then
              some (gl + w + g3 + w2,
                s.take gl ++ (s.drop gl).take w ++ tokNAME)
            else none
          else none
        else none)
  else none

/-! ### `RedactionPatterns.support_update_name`
`(?i)(Your support case has been updated by\s+)([^.]+?)(?=\.|$)` replaced by
`\1[REDACTED: NAME]`. -/

def supportLit : Cell := strC ("Your support case has been updated by")

/-- The lookahead `(?=\.|$)` (Python `$`: end, or a final newline). -/
def dollarOrDot (cs : List Char) : Bool :=
  cs.head? = some '.' || cs = [] || cs = ['\n']

def lazyND (k : Nat) : List Char → Option Nat
  | [] => some k
  | c :: rest =>
    if dollarOrDot (c :: rest) then some k
    else if c = '.' then none else lazyND (k + 1) rest

/-- Lazy `[^.]+?` up to `(?=\.|$)`. -/
def lazyNotDot : List Char → Option Nat
  | [] => none
  | c :: rest => if c = '.' then none else lazyND 1 rest

def supportM : Matcher := fun _ s =>
  if startsWithCI supportLit s then
    let rest := s.drop supportLit.length
    let w := runLen isSpaceC rest
    if 1 ≤ w then
      firstSome ((downFrom w).filter (fun k => 1 ≤ k)) (fun wl =>
        (lazyNotDot (rest.drop wl)).map (fun g2 =>
          (supportLit.length + wl + g2,
            s.take (supportLit.length + wl) ++ tokNAME)))
    else none
  else none

/-! ### `RedactionEngine._is_luhn_valid` -/

def luhnDouble (d : Nat) : Nat :=
  let t := d * 2
  if t < 10 then t else t - 9

/-- The checksum loop over the reversed digit list (index from the right). -/
def luhnSum : Nat → List Nat → Nat
  | _, [] => 0
  | i, d :: ds => (if i % 2 = 1 then luhnDouble d else d) + luhnSum (i + 1) ds

/-- `_is_luhn_valid`: keep the digit characters, fail on an empty digit
    list, otherwise check the Luhn checksum modulo 10. -/
def is_luhn_valid (cc : List Char) : Bool :=
  let digits := (cc.filter Char.isDigit).map (fun c => c.toNat - 48)
  if digits.isEmpty then false
  else luhnSum 0 digits.reverse % 10 = 0

/-! ### `RedactionPatterns.credit_card_candidate` and
`RedactionEngine._redact_credit_cards`

The candidate pattern is `\b(?:\d[ -]*?){13,19}\b`.  After each digit the
lazy `[ -]*?` tail is grown only when both continuing with another digit
and stopping at a word boundary fail; the counted group is greedy within
13..19 repetitions.  The replacement callback strips non-digits and
replaces the span only when the digit count lies in [13,19] and the Luhn
check passes; otherwise the span is kept verbatim. -/

def ccSepC (c : Char) : Bool := c = ' ' || c = '-'

/-- Continuation after the `k`-th digit of the counted group.  Returns the
number of further characters consumed.  `lastC` is the character just
before the current position (for the trailing `\b`). -/
def ccTail : Nat → Nat → Char → List Char → Option Nat
  | 0, _, _, _ => none
  | fuel + 1, k, lastC, cs =>
    let tryRep : Option Nat :=
      if k < 19 then
        match cs with
        | c :: rest =>
          if isDigitC c then (ccTail fuel (k + 1) c rest).map (fun n => n + 1)
          else none
        | [] => none
      else none
    match tryRep with
    | some n => some n
    | none =>
      if 13 ≤ k && wordBoundary (some lastC) cs.head? then some 0
      else
        match cs with
        | c :: rest =>
          if ccSepC c then (ccTail fuel k c rest).map (fun n => n + 1)
          else none
        | [] => none

def ccCandM : Matcher := fun prev s =>
  match s with
  | c :: rest =>
    if wordBoundary prev (some c) && isDigitC c then
      (ccTail s.length 1 c rest).map (fun n =>
        let m := s.take (n + 1)
        let d := m.filter Char.isDigit
        if 13 ≤ d.length && d.length ≤ 19 && is_luhn_valid d then
          (n + 1, tokCC)
        else (n + 1, m))
    else none
  | [] => none

def redact_credit_cards (text : Cell) : Cell := subst ccCandM text

/-! ### `RedactionPatterns.fqdn`
`(?<![a-zA-Z0-9.-])(?![a-zA-Z0-9.-]*newrelic)` followed by
`(?:[a-zA-Z0-9](?:[a-zA-Z0-9-]*[a-zA-Z0-9])?\.)+[a-zA-Z]{2,63}\b`. -/

/-- The negative lookahead body: can `newrelic` be reached after a run of
`[a-zA-Z0-9.-]` characters starting here? -/
def nrReach : List Char → Bool
  | [] => false
  | c :: rest => startsWithL (strC ("newrelic")) (c :: rest) ||
      (hostC c && nrReach rest)

def labelTailC (c : Char) : Bool := isAlnumC c || c = '-'

/-- One DNS label followed by a literal dot. -/
def labelAt : List Char → Option Nat
  | [] => none
  | c :: rest =>
    if isAlnumC c then
      let r := runLen labelTailC rest
      match (rest.drop r).head? with
      | some d =>
        if d = '.' then
          if r = 0 then some 2
          else
            match (rest.take r).getLast? with
            | some lc => if isAlnumC lc then some (r + 2) else none
            | none => none
        else none
      | none => none
    else none

/-- The final `[a-zA-Z]{2,63}\b`. -/
def tldAt (cs : List Char) : Option Nat :=
  let r := runLen isAlphaC cs
  if 2 ≤ r && r ≤ 63 && !optWordC ((cs.drop r).head?) then some r else none

/-- `(?:label\.)+` greedy, then the tld, with label-count backtracking. -/
def fqdnSeq : Nat → List Char → Option Nat
  | 0, _ => none
  | fuel + 1, cs =>
    match labelAt cs with
    | some l =>
      (match fqdnSeq fuel (cs.drop l) with
       | some m => some (l + m)
       | none => (tldAt (cs.drop l)).map (fun t => l + t))
    | none => none

def fqdnM : Matcher := fun prev s =>
  let okPrev :=
    match prev with
    | some c => !hostC c
    | none => true
  if okPrev && !nrReach s then
    (fqdnSeq s.length s).map (fun n => (n, tokFQDN))
  else none

/-! ### `RedactionPatterns.competitors`
`(?i)\b(Salesforce|Oracle|...|Mastercard)\b`, the vocabulary in source
order. -/

def compWords : List Cell :=
  [strC ("Salesforce"), strC ("Oracle"), strC ("SAP"), strC ("Datadog"),
   strC ("Splunk"), strC ("Dynatrace"), strC ("AppDynamics"),
   strC ("Sumologic"), strC ("Elastic"), strC ("Grafana"), strC ("Zabbix"),
   strC ("Nagios"), strC ("SolarWinds"), strC ("Microsoft"), strC ("Google"),
   strC ("AWS"), strC ("Amazon"), strC ("IBM"), strC ("Cisco"),
   strC ("Intel"), strC ("AMD"), strC ("Nvidia"), strC ("Apple"),
   strC ("Meta"), strC ("Facebook"), strC ("Netflix"), strC ("Adobe"),
   strC ("Intuit"), strC ("ServiceNow"), strC ("Snowflake"),
   strC ("Atlassian"), strC ("Jira"), strC ("Confluence"), strC ("Slack"),
   strC ("Zoom"), strC ("Twilio"), strC ("HPE"), strC ("HP"), strC ("Dell"),
   strC ("Lenovo"), strC ("Samsung"), strC ("Sony"), strC ("Stripe"),
   strC ("PayPal"), strC ("Square"), strC ("Visa"), strC ("Mastercard")]

def compM : Matcher := fun prev s =>
  if wordBoundary prev s.head? then
    (firstSome compWords (fun w =>
      if startsWithCI w s && !optWordC ((s.drop w.length).head?) then
        some w.length
      else none)).map (fun n => (n, tokCOMP))
  else none

/-! ### `RedactionEngine.process_dataframe`

The engine is column-oriented: a `DataFrame` is a list of column names
plus, for each column (in the same order), the list of that column's
cells.  `process_dataframe` first coerces cells to strings (`astype(str)`,
a no-op here) and replaces cells exactly equal to `"nan"` by the empty
string; then, per column: the protected-term mask is computed from the
original cell text, the per-cell pattern chain of steps 1-2 runs, the
credit-card pass runs only if some cell of the column still contains a
digit, and the fqdn and competitor rewrites are applied only where the
mask is false. -/

def patternChain : List Matcher :=
  [ipv4M, ipv6M, emailM, macM, uuidM, containerM, awsKeyM, googleM,
   stripeM, stripeM, apiKeyM, nrStructQM, nrStructUM, nrAssignQM,
   nrAssignUM, plocQM, plocUM, arnM, azureM, gcpM, phoneM, ssnM, greetM,
   supportM]

def applyPatterns (c : Cell) : Cell :=
  patternChain.foldl (fun acc m => subst m acc) c

def nrTerm : Cell := strC ("new relic")

/-- `df[col].str.contains('new relic', case=False, na=False)`, per cell. -/
def isNrSafe (c : Cell) : Bool := containsCI c nrTerm

def processColumn (cells : List Cell) : List Cell :=
  let mask := cells.map isNrSafe
  let s1 := cells.map applyPatterns
  let hasD := s1.any (fun c => c.any Char.isDigit)
  let s2 := if hasD then s1.map redact_credit_cards else s1
  let s3 := List.zipWith (fun m c => if m then c else subst fqdnM c) mask s2
  List.zipWith (fun m c => if m then c else subst compM c) mask s3

structure DataFrame where
  cols : List String
  data : List (List Cell)
deriving DecidableEq

def nanCell : Cell := strC ("nan")

def process_dataframe (df : DataFrame) : DataFrame :=
  { cols := df.cols
    data := df.data.map (fun col =>
      processColumn (col.map (fun c => if c = nanCell then [] else c))) }

/-- Pre-step-5 value of a cell in a singleton column (steps 1-4 of
section 4.3: the pattern chain plus the digit-gated credit-card pass). -/
def cellStage4 (c : Cell) : Cell :=
  let a := applyPatterns c
  if a.any Char.isDigit then redact_credit_cards a else a

/-- Final value of a cell in a singleton column, given the override mask. -/
def cellFinal (m : Bool) (c : Cell) : Cell :=
  let b := cellStage4 c
  if m then b else subst compM (subst fqdnM b)

/-! ### Concrete tables used by the claims -/

/-- The spec's end-to-end case-log table. -/
def caseTable : DataFrame :=
  ⟨["CaseID", "Date", "Contact", "Type"],
   [[strC ("CM-42")], [strC ("2024-01-01")], [strC ("Bob Lee")],
    [strC ("AllUsers")]]⟩

/-- The output the spec claims for `caseTable` (Contact cell overwritten
with the name-redaction token). -/
def caseTableClaimed : DataFrame :=
  ⟨["CaseID", "Date", "Contact", "Type"],
   [[strC ("CM-42")], [strC ("2024-01-01")], [tokNAME], [strC ("AllUsers")]]⟩

/-- A one-column, one-cell table. -/
def oneCellTable (c : Cell) : DataFrame := ⟨["A"], [[c]]⟩

/-- Cell whose first-pass email redaction removes the protected-term
signal. -/
def mixedCell : Cell := strC ("new relic@a.com Salesforce")

/-! ### Helper lemmas -/

theorem all_take_of_le_runLen {p : Char → Bool} :
    ∀ (cs : List Char) (t : Nat), t ≤ runLen p cs → (cs.take t).all p = true := by
  intro cs
  induction cs with
  | nil => intro t _; simp
  | cons c cs ih =>
    intro t ht
    cases t with
    | zero => simp
    | succ t =>
      by_cases hc : p c
      · simp only [runLen, hc, if_true] at ht
        simp only [List.take, List.all_cons, hc, Bool.true_and]
        exact ih t (Nat.le_of_succ_le_succ ht)
      · rw [Bool.not_eq_true] at hc
        simp only [runLen, hc, Bool.false_eq_true, if_false] at ht
        omega

theorem all_imp {p q : Char → Bool} (h : ∀ c, p c = true → q c = true) :
    ∀ (l : List Char), l.all p = true → l.all q = true := by
  intro l
  induction l with
  | nil => simp
  | cons c cs ih =>
    simp only [List.all_cons, Bool.and_eq_true]
    exact fun hp => ⟨h c hp.1, ih hp.2⟩

theorem labelTailC_host : ∀ c, labelTailC c = true → hostC c = true := by
  intro c hc
  simp only [labelTailC, Bool.or_eq_true] at hc
  rcases hc with h | h <;> simp [hostC, h]

theorem alnum_host : ∀ c, isAlnumC c = true → hostC c = true := by
  intro c hc; simp [hostC, hc]

theorem alpha_host : ∀ c, isAlphaC c = true → hostC c = true := by
  intro c hc
  simp only [isAlphaC] at hc
  simp [hostC, isAlnumC, Char.isAlphanum, hc]

theorem labelAt_spec : ∀ (c : Char) (rest : List Char) (l : Nat),
    labelAt (c :: rest) = some l →
    isAlnumC c = true ∧
    (rest.drop (runLen labelTailC rest)).head? = some '.' ∧
    l = runLen labelTailC rest + 2 := by
  intro c rest l h
  by_cases hc : isAlnumC c
  · cases hd : (rest.drop (runLen labelTailC rest)).head? with
    | none => simp [labelAt, hc, hd] at h
    | some d =>
      simp only [labelAt, hc, if_true, hd] at h
      by_cases hdot : d = '.'
      · subst hdot
        refine ⟨hc, rfl, ?_⟩
        rw [if_pos rfl] at h
        by_cases hr : runLen labelTailC rest = 0
        · rw [if_pos hr] at h
          simp only [Option.some.injEq] at h
          omega
        · rw [if_neg hr] at h
          cases hl : (rest.take (runLen labelTailC rest)).getLast? with
          | none => simp [hl] at h
          | some lc =>
            simp only [hl] at h
            by_cases halc : isAlnumC lc
            · rw [if_pos halc] at h
              simp only [Option.some.injEq] at h
              omega
            · rw [if_neg halc] at h; simp at h
      · rw [if_neg hdot] at h; simp at h
  · simp [labelAt, hc] at h

theorem labelAt_all_host : ∀ (cs : List Char) (l : Nat),
    labelAt cs = some l → (cs.take l).all hostC = true := by
  intro cs l h
  cases cs with
  | nil => simp [labelAt] at h
  | cons c rest =>
    obtain ⟨hc, hd, rfl⟩ := labelAt_spec c rest l h
    have h1 : (rest.take (runLen labelTailC rest)).all hostC = true :=
      all_imp labelTailC_host _ (all_take_of_le_runLen rest _ (le_refl _))
    have h2 : rest[runLen labelTailC rest]? = some '.' := by
      rw [← List.head?_drop]; exact hd
    have h3 : (c :: rest).take (runLen labelTailC rest + 2) =
        c :: rest.take (runLen labelTailC rest + 1) := rfl
    rw [h3, List.take_succ, h2]
    simp only [Option.toList_some, List.all_cons, List.all_append,
      Bool.and_eq_true]
    refine ⟨alnum_host c hc, h1, ?_⟩
    simp [hostC]

theorem tldAt_all_host : ∀ (cs : List Char) (t : Nat),
    tldAt cs = some t → (cs.take t).all hostC = true := by
  intro cs t h
  simp only [tldAt] at h
  split at h
  · simp only [Option.some.injEq] at h
    rw [← h]
    exact all_imp alpha_host _ (all_take_of_le_runLen cs _ (le_refl _))
  · simp at h

theorem fqdnSeq_all_host : ∀ (fuel : Nat) (cs : List Char) (n : Nat),
    fqdnSeq fuel cs = some n → (cs.take n).all hostC = true := by
  intro fuel
  induction fuel with
  | zero => intro cs n h; simp [fqdnSeq] at h
  | succ fuel ih =>
    intro cs n h
    cases hl : labelAt cs with
    | none => simp [fqdnSeq, hl] at h
    | some l =>
      simp only [fqdnSeq, hl] at h
      cases hs : fqdnSeq fuel (cs.drop l) with
      | some m =>
        simp only [hs, Option.some.injEq] at h
        rw [← h, List.take_add, List.all_append, Bool.and_eq_true]
        exact ⟨labelAt_all_host _ _ hl, ih _ _ hs⟩
      | none =>
        simp only [hs, Option.map_eq_some'] at h
        obtain ⟨t, ht, hn⟩ := h
        rw [← hn, List.take_add, List.all_append, Bool.and_eq_true]
        exact ⟨labelAt_all_host _ _ hl, tldAt_all_host _ _ ht⟩

theorem startsWithL_take : ∀ (p cs : List Char) (n : Nat),
    startsWithL p (cs.take n) = true → startsWithL p cs = true := by
  intro p
  induction p with
  | nil => intro cs n _; rfl
  | cons a ps ih =>
    intro cs n h
    cases cs with
    | nil => simpa using h
    | cons c cs =>
      cases n with
      | zero => simp [startsWithL] at h
      | succ n =>
        simp only [List.take, startsWithL, Bool.and_eq_true] at h ⊢
        exact ⟨h.1, ih cs n h.2⟩

theorem nrReach_of_contains : ∀ (cs : List Char) (n : Nat),
    (cs.take n).all hostC = true →
    containsSub (strC ("newrelic")) (cs.take n) = true → nrReach cs = true := by
  intro cs
  induction cs with
  | nil =>
    intro n _ h
    rw [List.take_nil] at h
    exact absurd h (by decide)
  | cons c cs ih =>
    intro n hall hcont
    cases n with
    | zero =>
      rw [List.take_zero] at hcont
      exact absurd hcont (by decide)
    | succ n =>
      simp only [List.take, List.all_cons, Bool.and_eq_true] at hall
      simp only [List.take, containsSub, Bool.or_eq_true] at hcont
      rcases hcont with h | h
      · have hs : startsWithL (strC ("newrelic")) (c :: cs) = true := by
          have : (c :: cs.take n) = (c :: cs).take (n + 1) := rfl
          rw [this] at h
          exact startsWithL_take _ _ _ h
        simp [nrReach, hs]
      · have hr : nrReach cs = true := ih n hall.2 h
        simp [nrReach, hall.1, hr]

theorem processColumn_length (cells : List Cell) :
    (processColumn cells).length = cells.length := by
  unfold processColumn
  cases h : (cells.map applyPatterns).any (fun c => c.any Char.isDigit) <;>
    simp only [h, if_true, if_false, Bool.false_eq_true, List.length_zipWith,
      List.length_map] <;> omega

theorem processColumn_singleton (c : Cell) :
    processColumn [c] = [cellFinal (isNrSafe c) c] := by
  cases hD : (applyPatterns c).any Char.isDigit <;>
    cases hm : isNrSafe c <;>
      simp [processColumn, cellFinal, cellStage4, hD, hm]

theorem startsWithL_iff : ∀ (p l : List Char),
    startsWithL p l = true ↔ ∃ t, l = p ++ t := by
  intro p
  induction p with
  | nil =>
    intro l
    constructor
    · intro _; exact ⟨l, by simp⟩
    · intro _; rfl
  | cons a ps ih =>
    intro l
    cases l with
    | nil =>
      simp only [startsWithL, List.cons_append]
      constructor
      · intro h; exact absurd h (by simp)
      · rintro ⟨t, ht⟩; exact absurd ht (by simp)
    | cons c cs =>
      simp only [startsWithL, Bool.and_eq_true, decide_eq_true_eq,
        List.cons_append]
      constructor
      · rintro ⟨rfl, h2⟩
        obtain ⟨t, rfl⟩ := (ih cs).mp h2
        exact ⟨t, rfl⟩
      · rintro ⟨t, ht⟩
        injection ht with h1 h2
        exact ⟨h1.symm, (ih cs).mpr ⟨t, h2⟩⟩

theorem containsSub_iff : ∀ (p l : List Char),
    containsSub p l = true ↔ ∃ u v, l = u ++ p ++ v := by
  intro p l
  induction l with
  | nil =>
    simp only [containsSub]
    constructor
    · intro h
      obtain ⟨t, ht⟩ := (startsWithL_iff p []).mp h
      exact ⟨[], t, by simpa using ht⟩
    · rintro ⟨u, v, huv⟩
      have h1 := List.append_eq_nil.mp huv.symm
      have h2 := List.append_eq_nil.mp h1.1
      rw [h2.2]
      rfl
  | cons c cs ih =>
    simp only [containsSub, Bool.or_eq_true]
    constructor
    · rintro (h | h)
      · obtain ⟨t, ht⟩ := (startsWithL_iff p (c :: cs)).mp h
        exact ⟨[], t, by simpa using ht⟩
      · obtain ⟨u, v, huv⟩ := ih.mp h
        exact ⟨c :: u, v, by simp [huv]⟩
    · rintro ⟨u, v, huv⟩
      cases u with
      | nil =>
        left
        exact (startsWithL_iff p (c :: cs)).mpr ⟨v, by simpa using huv⟩
      | cons x u =>
        right
        injection huv with h1 h2
        exact ih.mpr ⟨u, v, h2⟩

theorem filter_digit_idem (l : List Char) :
    (l.filter Char.isDigit).filter Char.isDigit = l.filter Char.isDigit := by
  simp [List.filter_filter, Bool.and_self]

/-! ### Claim theorems -/

set_option maxHeartbeats 1600000 in
/-- Claim C1 (counterexample): the spec claims a final cross-field pass
overwrites the Contact cell of the case-log row with the name token; in
the code that pass (the `case_log_pattern` rule) is commented out, so the
engine returns the end-to-end table unchanged, which differs from the
claimed output table. -/
theorem c1_counterexample :
    process_dataframe caseTable = caseTable ∧ caseTable ≠ caseTableClaimed :=
  ⟨rfl, by decide⟩

set_option maxHeartbeats 1600000 in
/-- Claim C1 (amended): no cross-field pass runs after the per-cell rules;
the table `[CaseID, Date, Contact, Type]` with the single row
`["CM-42", "2024-01-01", "Bob Lee", "AllUsers"]` is returned entirely
unchanged, with "Bob Lee" intact. -/
theorem c1_amended : process_dataframe caseTable = caseTable := by rfl

set_option maxHeartbeats 1600000 in
/-- Claim C2 (counterexample): the engine is not idempotent.  For the cell
`"new relic@a.com Salesforce"` the first pass redacts the email
`relic@a.com`, removing the protected-term signal, so the second pass
additionally redacts `Salesforce`: `redact(redact(x)) ≠ redact(x)`. -/
theorem c2_counterexample :
    process_dataframe (oneCellTable mixedCell) =
      oneCellTable (strC ("new [REDACTED: EMAIL] Salesforce")) ∧
    process_dataframe (oneCellTable (strC ("new [REDACTED: EMAIL] Salesforce"))) =
      oneCellTable
        (strC ("new [REDACTED: EMAIL] [REDACTED: PRODUCT/COMPETITOR]")) ∧
    strC ("new [REDACTED: EMAIL] Salesforce") ≠
      strC ("new [REDACTED: EMAIL] [REDACTED: PRODUCT/COMPETITOR]") :=
  ⟨rfl, rfl, by decide⟩

set_option maxHeartbeats 1600000 in
/-- Claim C2 (amended): the engine is not idempotent.  A second run can
change a cell further in at least two ways: when the first pass removes
the protected-term signal (`mixedCell`, see the counterexample), and even
when that signal is untouched, because the `[REDACTED: NR_ENV_VAR]`
token's embedded space is itself re-matched by
`nr_env_assignment_unquoted` (cell `NEW_RELIC_KEY=abc`).  Re-running the
engine does leave the spec's concrete example outputs fixed: the
end-to-end case-log table, the override example and the Luhn example. -/
theorem c2_amended :
    processColumn [strC ("NEW_RELIC_KEY=abc")] =
      [strC ("NEW_RELIC_KEY=[REDACTED: NR_ENV_VAR]")] ∧
    processColumn [strC ("NEW_RELIC_KEY=[REDACTED: NR_ENV_VAR]")] =
      [strC ("NEW_RELIC_KEY=[REDACTED: NR_ENV_VAR] NR_ENV_VAR]")] ∧
    isNrSafe (strC ("NEW_RELIC_KEY=abc")) = false ∧
    isNrSafe (strC ("NEW_RELIC_KEY=[REDACTED: NR_ENV_VAR]")) = false ∧
    strC ("NEW_RELIC_KEY=[REDACTED: NR_ENV_VAR]") ≠
      strC ("NEW_RELIC_KEY=[REDACTED: NR_ENV_VAR] NR_ENV_VAR]") ∧
    process_dataframe (process_dataframe caseTable) =
      process_dataframe caseTable ∧
    processColumn (processColumn [strC ("Contact us, not Salesforce")]) =
      processColumn [strC ("Contact us, not Salesforce")] ∧
    processColumn (processColumn [strC ("4111111111111111")]) =
      processColumn [strC ("4111111111111111")] := by
  have h1 : process_dataframe caseTable = caseTable := rfl
  have h2 : processColumn [strC ("Contact us, not Salesforce")] =
      [strC ("Contact us, not [REDACTED: PRODUCT/COMPETITOR]")] := rfl
  have h3 : processColumn [strC ("4111111111111111")] = [tokCC] := rfl
  refine ⟨rfl, rfl, rfl, rfl, by decide, ?_, ?_, ?_⟩
  · rw [h1]; exact h1
  · rw [h2]; rfl
  · rw [h3]; rfl

set_option maxHeartbeats 1600000 in
/-- Claim C3 (counterexample): the spec claims a 10-digit run such as
`4111111111` is left unredacted by the engine; in fact the phone rule of
the full engine redacts that cell to the phone token. -/
theorem c3_counterexample :
    process_dataframe (oneCellTable (strC ("4111111111"))) =
      oneCellTable tokPHONE ∧
    tokPHONE ≠ strC ("4111111111") :=
  ⟨rfl, by decide⟩

set_option maxHeartbeats 1600000 in
/-- Claim C3 (amended): `4111111111111111` (valid Luhn, 16 digits) is
redacted to the credit-card token; `4111111111111112` (invalid Luhn) is
left entirely unredacted; the 10-digit run `4111111111` is left untouched
by the credit-card rule (length gate), but over the full engine that cell
is redacted by the phone rule instead. -/
theorem c3_amended :
    process_dataframe (oneCellTable (strC ("4111111111111111"))) =
      oneCellTable tokCC ∧
    process_dataframe (oneCellTable (strC ("4111111111111112"))) =
      oneCellTable (strC ("4111111111111112")) ∧
    redact_credit_cards (strC ("4111111111")) = strC ("4111111111") ∧
    is_luhn_valid (strC ("4111111111111111")) = true ∧
    is_luhn_valid (strC ("4111111111111112")) = false ∧
    process_dataframe (oneCellTable (strC ("4111111111"))) =
      oneCellTable tokPHONE :=
  ⟨rfl, rfl, rfl, rfl, rfl, rfl⟩

set_option maxHeartbeats 1600000 in
/-- Claim C4: per-cell override selection.  When the override context is
false the final cell value is the competitor-redaction applied to the
hostname-redaction of the pre-step-5 text; when it is true the cell keeps
its pre-step-5 text (all other rules still apply).  Concretely,
`"Contact us, not Salesforce"` has its competitor redacted, while
`"new relic vs Salesforce"` keeps `Salesforce`, though an email in such a
cell is still redacted. -/
theorem c4_override_selection :
    (∀ c : Cell, isNrSafe c = false →
      processColumn [c] = [subst compM (subst fqdnM (cellStage4 c))]) ∧
    (∀ c : Cell, isNrSafe c = true → processColumn [c] = [cellStage4 c]) ∧
    processColumn [strC ("Contact us, not Salesforce")] =
      [strC ("Contact us, not [REDACTED: PRODUCT/COMPETITOR]")] ∧
    processColumn [strC ("new relic vs Salesforce")] =
      [strC ("new relic vs Salesforce")] ∧
    processColumn [strC ("new relic vs Salesforce mail a@b.co")] =
      [strC ("new relic vs Salesforce mail [REDACTED: EMAIL]")] := by
  refine ⟨?_, ?_, rfl, rfl, rfl⟩
  · intro c h
    rw [processColumn_singleton]
    simp [cellFinal, h]
  · intro c h
    rw [processColumn_singleton]
    simp [cellFinal, h]

set_option maxHeartbeats 1600000 in
/-- Claim C4 witness: the override-selection equations instantiated at the
two concrete example cells. -/
theorem c4_override_selection_witness :
    isNrSafe (strC ("Contact us, not Salesforce")) = false ∧
    processColumn [strC ("Contact us, not Salesforce")] =
      [subst compM (subst fqdnM
        (cellStage4 (strC ("Contact us, not Salesforce"))))] ∧
    isNrSafe (strC ("new relic vs Salesforce")) = true ∧
    processColumn [strC ("new relic vs Salesforce")] =
      [cellStage4 (strC ("new relic vs Salesforce"))] :=
  ⟨rfl, c4_override_selection.1 (strC ("Contact us, not Salesforce")) rfl,
   rfl, c4_override_selection.2.1 (strC ("new relic vs Salesforce")) rfl⟩

set_option maxHeartbeats 1600000 in
/-- Claim C5: the override context of every cell is computed from the
untouched original cell text; a redaction that rewrites the cell (here the
email redaction that erases the `"new relic"` substring of `mixedCell`)
never changes the override decision for that cell. -/
theorem c5_override_from_original :
    (∀ c : Cell, processColumn [c] = [cellFinal (containsCI c nrTerm) c]) ∧
    process_dataframe (oneCellTable mixedCell) =
      oneCellTable (strC ("new [REDACTED: EMAIL] Salesforce")) ∧
    containsCI mixedCell nrTerm = true ∧
    containsCI (applyPatterns mixedCell) nrTerm = false :=
  ⟨fun c => processColumn_singleton c, rfl, rfl, rfl⟩

/-- Claim C6: shape invariant.  For every input table the output has the
same column names (hence count and order) and each column keeps its
length (row count); redaction never adds, removes or renames a column and
never adds or removes a row. -/
theorem c6_shape_invariant :
    ∀ df : DataFrame,
      (process_dataframe df).cols = df.cols ∧
      (process_dataframe df).data.length = df.data.length ∧
      (process_dataframe df).data.map List.length = df.data.map List.length := by
  intro df
  refine ⟨rfl, by simp [process_dataframe], ?_⟩
  simp only [process_dataframe, List.map_map]
  have h : ∀ cols : List (List Cell),
      cols.map (fun col =>
        (processColumn (col.map fun c =>
          if c = nanCell then [] else c)).length) = cols.map List.length := by
    intro cols
    induction cols with
    | nil => rfl
    | cons a t ih => simp [processColumn_length, ih]
  exact h df.data

set_option maxHeartbeats 1600000 in
/-- Claim C7: the fqdn matcher never produces a match whose text contains
`newrelic` — the exclusion is enforced inside the matcher by the negative
lookahead — so such hostnames are never replaced by the FQDN token even
when the override context is false; `docs.newrelic.com` survives while
`example.org` in the same cell is redacted. -/
theorem c7_fqdn_newrelic_exclusion :
    (∀ (prev : Option Char) (s : List Char) (n : Nat) (rep : Cell),
      fqdnM prev s = some (n, rep) →
      containsSub (strC ("newrelic")) (s.take n) = false) ∧
    processColumn [strC ("visit docs.newrelic.com and example.org now")] =
      [strC ("visit docs.newrelic.com and [REDACTED: FQDN] now")] := by
  constructor
  · intro prev s n rep h
    simp only [fqdnM] at h
    split at h
    case isTrue hcond =>
      rw [Option.map_eq_some'] at h
      obtain ⟨a, ha, heq⟩ := h
      injection heq with h1 h2
      subst h1
      rw [Bool.and_eq_true] at hcond
      have hnr : nrReach s = false := by simpa using hcond.2
      cases hc : containsSub (strC ("newrelic")) (s.take a) with
      | false => rfl
      | true =>
        have hall := fqdnSeq_all_host s.length s a ha
        have hreach := nrReach_of_contains s a hall hc
        rw [hreach] at hnr
        cases hnr
    case isFalse => simp at h
  · rfl

set_option maxHeartbeats 1600000 in
/-- Claim C7 witness: the fqdn matcher fires on `example.com` and the
matched span indeed does not contain `newrelic`. -/
theorem c7_fqdn_newrelic_exclusion_witness :
    fqdnM none (strC ("example.com")) = some (11, tokFQDN) ∧
    containsSub (strC ("newrelic")) ((strC ("example.com")).take 11) = false :=
  ⟨rfl,
   c7_fqdn_newrelic_exclusion.1 none (strC ("example.com")) 11 tokFQDN rfl⟩

set_option maxHeartbeats 1600000 in
/-- Claim C8: before any pattern runs, a cell whose entire value is the
literal string `nan` is replaced by the empty string, while every other
cell is passed through unchanged to the pattern pipeline; a genuine cell
`"nan"` is silently blanked in the output. -/
theorem c8_nan_normalization :
    (∀ c : Cell, c ≠ nanCell →
      process_dataframe (oneCellTable c) = ⟨["A"], [processColumn [c]]⟩) ∧
    process_dataframe (oneCellTable nanCell) = ⟨["A"], [processColumn [[]]]⟩ ∧
    process_dataframe (oneCellTable nanCell) = oneCellTable [] := by
  refine ⟨?_, rfl, rfl⟩
  intro c h
  simp [process_dataframe, oneCellTable, h]

set_option maxHeartbeats 1600000 in
/-- Claim C8 witness: the non-`nan` case instantiated at the cell
`"nano"`, which is not blanked. -/
theorem c8_nan_normalization_witness :
    strC ("nano") ≠ nanCell ∧
    process_dataframe (oneCellTable (strC ("nano"))) =
      ⟨["A"], [processColumn [strC ("nano")]]⟩ :=
  ⟨by decide, c8_nan_normalization.1 (strC ("nano")) (by decide)⟩

set_option maxHeartbeats 1600000 in
/-- Claim C9: the override context is active iff the cell's original text
contains the two-word substring `"new relic"` case-insensitively; the
one-word form (as in the hostname `newrelic.com`) does not activate it,
so competitors in such a cell are still redacted. -/
theorem c9_protected_term_two_words :
    (∀ c : Cell, isNrSafe c = true ↔
      ∃ u v, toLowerL c = u ++ strC ("new relic") ++ v) ∧
    isNrSafe (strC ("newrelic.com loves Datadog")) = false ∧
    processColumn [strC ("newrelic.com loves Datadog")] =
      [strC ("newrelic.com loves [REDACTED: PRODUCT/COMPETITOR]")] ∧
    isNrSafe (strC ("New Relic vs Datadog")) = true ∧
    processColumn [strC ("New Relic vs Datadog")] =
      [strC ("New Relic vs Datadog")] := by
  refine ⟨?_, rfl, rfl, rfl, rfl⟩
  intro c
  exact containsSub_iff (strC ("new relic")) (toLowerL c)

/-- Claim C10: the Luhn validator is total, strips non-digit characters
before the checksum, and returns false for every input containing no
digits (not only the empty string). -/
theorem c10_luhn_total :
    (∀ s : Cell, (∀ c ∈ s, c.isDigit = false) → is_luhn_valid s = false) ∧
    (∀ s : Cell, is_luhn_valid s = is_luhn_valid (s.filter Char.isDigit)) := by
  constructor
  · intro s h
    have hf : s.filter Char.isDigit = [] :=
      List.filter_eq_nil_iff.mpr (fun a ha => by simp [h a ha])
    simp [is_luhn_valid, hf]
  · intro s
    simp only [is_luhn_valid, filter_digit_idem]

/-- Claim C10 witness: `"abc"` contains no digit and fails validation. -/
theorem c10_luhn_total_witness :
    (∀ c ∈ strC ("abc"), c.isDigit = false) ∧
    is_luhn_valid (strC ("abc")) = false :=
  ⟨by decide, c10_luhn_total.1 (strC ("abc")) (by decide)⟩
